import Mathlib

set_option maxRecDepth 100000

/-!
Shallow embedding of `src/smart_gps_parser_v2.py` (class `SmartGPSParserV2`).

Modelling conventions:
* A byte buffer is a `List Nat` (each entry one byte, `0 ≤ b < 256` for real files).
* Python `float` values decoded from 4 little-endian bytes by `struct.unpack('<f', …)`
  are modelled exactly by the IEEE-754 binary32 decoding `decodeF32Bits`, with finite
  values carried as exact rationals and the special values `inf`, `neginf`, `nan`
  carried symbolically by the `F32` type.  Python comparison semantics on these
  values (comparisons with `nan` are false, infinities are ordered) are modelled by
  `F32.lt` / `F32.le`.
* `calculate_distance` computes the haversine great-circle distance with
  `math.sin` / `math.cos` / `math.atan2` / `math.sqrt` on floats — transcendental
  floating-point arithmetic that has no exact shallow embedding.  It is therefore
  carried as an uninterpreted parameter `dist : ℚ → ℚ → ℚ → ℚ → ℚ`
  (`dist lat1 lon1 lat2 lon2`, kilometres).  Every theorem below is proved for an
  arbitrary such function, hence in particular for the haversine distance.
* Exact rational arithmetic stands in for float64 arithmetic in the few places the
  code adds or divides finite decoded values (centroids, the altitude mean); the
  claims checked here are insensitive to that rounding.
-/

/-- IEEE-754 binary32 value as decoded by `struct.unpack('<f', …)`: an exact
rational for finite values, plus the special values. -/
inductive F32 where
  | finite (q : ℚ)
  | inf
  | neginf
  | nan
deriving DecidableEq

/-- Byte at index `i` of a record (`record[i]`); call sites only use indices that
the source guards to be in range, so the default 0 is never observed. -/
def byteAt (r : List Nat) (i : Nat) : Nat := r.getD i 0

/-- Little-endian unsigned 32-bit word over `record[i:i+4]`, as read by
`struct.unpack('<I', …)` (also the bit pattern fed to the float32 decoder). -/
def leUInt32 (r : List Nat) (i : Nat) : Nat :=
  byteAt r i + 256 * byteAt r (i + 1) + 65536 * byteAt r (i + 2) +
    16777216 * byteAt r (i + 3)

/-- Exact IEEE-754 binary32 interpretation of a 32-bit pattern (the rational
arithmetic is phrased through `mkRat` so that it evaluates by kernel
reduction; the value is the usual `(-1)^s · 1.m · 2^(e-127)` / subnormal /
special-value reading of the pattern). -/
def decodeF32Bits (bits : Nat) : F32 :=
  let s : Nat := bits / 2 ^ 31
  let e : Nat := bits / 2 ^ 23 % 2 ^ 8
  let m : Nat := bits % 2 ^ 23
  if e = 255 then
    if m = 0 then (if s = 1 then F32.neginf else F32.inf) else F32.nan
  else
    let mag : ℚ :=
      if e = 0 then mkRat m (2 ^ 149)
      else mkRat ((2 ^ 23 + m) * 2 ^ e) (2 ^ 150)
    F32.finite (if s = 1 then -mag else mag)

/-- `struct.unpack('<f', record[i:i+4])[0]`. -/
def f32At (r : List Nat) (i : Nat) : F32 := decodeF32Bits (leUInt32 r i)

/-- Python `<=` on floats: false whenever `nan` is involved, infinities ordered. -/
def F32.le : F32 → F32 → Bool
  | .nan, _ => false
  | _, .nan => false
  | .neginf, _ => true
  | _, .neginf => false
  | _, .inf => true
  | .inf, _ => false
  | .finite p, .finite q => decide (p ≤ q)

/-- Python `<` on floats. -/
def F32.lt : F32 → F32 → Bool
  | .nan, _ => false
  | _, .nan => false
  | .neginf, .neginf => false
  | .neginf, _ => true
  | _, .neginf => false
  | .inf, _ => false
  | _, .inf => true
  | .finite p, .finite q => decide (p < q)

/-- Python `abs` on floats. -/
def F32.abs : F32 → F32
  | .finite q => .finite |q|
  | .inf => .inf
  | .neginf => .inf
  | .nan => .nan

/-- Python truthiness of a float (`0.0` and `-0.0` are falsy, everything else
including `nan` and the infinities is truthy). -/
def F32.truthy : F32 → Bool
  | .finite q => decide (q ≠ 0)
  | _ => true

/-- The finite payload of an `F32`.  Only applied to values that the source has
already guarded to be finite (they passed `is_valid_coordinate`). -/
def F32.q : F32 → ℚ
  | .finite v => v
  | _ => 0

/-- Exact rational sum, phrased through `Rat.divInt` for kernel reducibility
(the `Rat` field operations of the library are `@[irreducible]`). -/
def qAdd (a b : ℚ) : ℚ :=
  Rat.divInt (a.num * (b.den : Int) + b.num * (a.den : Int)) ((a.den : Int) * (b.den : Int))

/-- Exact halving, phrased through `Rat.divInt` for kernel reducibility. -/
def qHalf (a : ℚ) : ℚ := Rat.divInt a.num ((a.den : Int) * 2)

/-- Division of an exact rational by a positive count, for centroids. -/
def qDivNat (a : ℚ) (n : Nat) : ℚ := Rat.divInt a.num ((a.den : Int) * (n : Int))

/-- Left-to-right sum of a list of exact rationals, as Python `sum`. -/
def qSum (l : List ℚ) : ℚ := l.foldl qAdd 0

/-- Python `(p + n) / 2` on floats: exact on finite operands (see the rounding
note in the header), IEEE rules on the special values. -/
def halfSum : F32 → F32 → F32
  | .finite p, .finite q => .finite (qHalf (qAdd p q))
  | .nan, _ => .nan
  | _, .nan => .nan
  | .inf, .neginf => .nan
  | .neginf, .inf => .nan
  | .inf, _ => .inf
  | _, .inf => .inf
  | .neginf, _ => .neginf
  | _, .neginf => .neginf

/-- `SmartGPSParserV2.is_valid_coordinate` (the `lat is None` guard never fires on
decoded floats and is not modelled; the literal `0.01` is the rational `1/100`,
which no float32 separates from the float64 constant `0.01`). -/
def is_valid_coordinate (lat lon : F32) : Bool :=
  if !(F32.le (.finite (-90)) lat && F32.le lat (.finite 90)) then false
  else if !(F32.le (.finite (-180)) lon && F32.le lon (.finite 180)) then false
  else if F32.lt (F32.abs lat) (.finite (mkRat 1 100)) &&
      F32.lt (F32.abs lon) (.finite (mkRat 1 100)) then false
  else true

/-- One iteration of the running-minimum loop of `is_geographically_coherent`:
`min_distance = min(min_distance, self.calculate_distance(lat, lon, hist_lat, hist_lon))`,
with the initial `float('inf')` modelled by the `none` accumulator. -/
def coherenceStep (dist : ℚ → ℚ → ℚ → ℚ → ℚ) (lat lon : ℚ)
    (acc : Option ℚ) (p : ℚ × ℚ) : Option ℚ :=
  some (match acc with
    | none => dist lat lon p.1 p.2
    | some m => min m (dist lat lon p.1 p.2))

/-- `SmartGPSParserV2.is_geographically_coherent` with `max_jump_km = 50` (the
only value the source ever passes).  `hist` is `self.coord_history`. -/
def is_geographically_coherent (dist : ℚ → ℚ → ℚ → ℚ → ℚ)
    (hist : List (ℚ × ℚ)) (lat lon : ℚ) : Bool :=
  if hist = [] then true
  else
    match (hist.drop (hist.length - 10)).foldl (coherenceStep dist lat lon) none with
    | none => false
    | some m => decide (m < 50)

/-- `SmartGPSParserV2.is_in_reasonable_region` (`max_distance = 200`). -/
def is_in_reasonable_region (dist : ℚ → ℚ → ℚ → ℚ → ℚ)
    (center : Option (ℚ × ℚ)) (lat lon : ℚ) : Bool :=
  match center with
  | none => true
  | some c => decide (dist lat lon c.1 c.2 < 200)

/-- Python `sorted` on a list of floats (all call sites sort finite values, where
float order agrees with ℚ order). -/
def sortQ (l : List ℚ) : List ℚ := List.insertionSort (· ≤ ·) l

/-- The per-axis value `update_region_center` stores: `sorted(xs)[len(xs)//2]`. -/
def medianAt (l : List ℚ) : ℚ := (sortQ l).getD ((sortQ l).length / 2) 0

/-- Both components stored by `update_region_center` for a history window. -/
def regionMediansOf (hist : List (ℚ × ℚ)) : ℚ × ℚ :=
  (medianAt (hist.map Prod.fst), medianAt (hist.map Prod.snd))

/-- One candidate collected by `find_gps_in_record`. -/
structure GpsCandidate where
  offset : Nat
  latitude : F32
  longitude : F32
  altitude : Option F32
deriving DecidableEq

/-- The body of the offset loop of `SmartGPSParserV2.find_gps_in_record`: the
candidate collected at `offset`, or `none` if some filter rejects it.  `hist`
and `center` are `self.coord_history` and `self.region_center` (fixed during the
scan of a single record).  The `try`/`except` around the unpacks never fires
because the loop bound guarantees 8 readable bytes. -/
def candidateAt (dist : ℚ → ℚ → ℚ → ℚ → ℚ) (hist : List (ℚ × ℚ))
    (center : Option (ℚ × ℚ)) (record : List Nat) (offset : Nat) :
    Option GpsCandidate :=
  let lat := f32At record offset
  let lon := f32At record (offset + 4)
  if !(is_valid_coordinate lat lon) then none
  else if F32.lt (F32.abs lat) (.finite 1) && F32.lt (F32.abs lon) (.finite 1) then none
  else if !(is_geographically_coherent dist hist lat.q lon.q) then none
  else if decide (10 < hist.length) &&
      !(is_in_reasonable_region dist center lat.q lon.q) then none
  else
    let alt : Option F32 :=
      if offset + 12 ≤ record.length then
        let a := f32At record (offset + 8)
        if F32.lt (.finite (-500)) a && F32.lt a (.finite 10000) then some a else none
      else none
    some ⟨offset, lat, lon, alt⟩

/-- `SmartGPSParserV2.find_gps_in_record`: candidates in ascending offset order
over `range(4, min(len(record) - 8, 80))`. -/
def find_gps_in_record (dist : ℚ → ℚ → ℚ → ℚ → ℚ) (hist : List (ℚ × ℚ))
    (center : Option (ℚ × ℚ)) (record : List Nat) : List GpsCandidate :=
  if record.length < 12 then []
  else (List.range' 4 (min (record.length - 8) 80 - 4)).filterMap
    (candidateAt dist hist center record)

/-- The `source` tag of a GPS dict (`'KNOWN_TYPE'` / `'KNOWN_RELATIVE'` /
`'DISCOVERED'`). -/
inductive GpsSource where
  | knownType
  | knownRelative
  | discovered
deriving DecidableEq

/-- One entry of `gps_all` / `gps_known` / `gps_discovered`: the union of the
dict shapes built by `parse_known_gps_absolute`, `parse_known_gps_relative` and
the discovered branch of `parse_all`; absent keys are `none`. -/
structure GpsSample where
  source : GpsSource
  type_hex : List Nat
  latitude : Option F32
  longitude : Option F32
  altitude : Option F32
  counter : Option Nat
  x : Option F32
  y : Option F32
  z : Option F32
  record_offset : Nat
  record_pos : Option Nat
deriving DecidableEq

/-- One entry of `self.telemetry`. -/
structure TelemetrySample where
  counter : Nat
  param1 : F32
  param2 : F32
  param3 : F32
deriving DecidableEq

/-- The mutable session state of a `SmartGPSParserV2` instance (`self.records`
and the print-only `type_stats` are not carried). -/
structure ParserState where
  gps_known : List GpsSample
  gps_discovered : List GpsSample
  gps_all : List GpsSample
  telemetry : List TelemetrySample
  coord_history : List (ℚ × ℚ)
  region_center : Option (ℚ × ℚ)
deriving DecidableEq

/-- The state right after `__init__`. -/
def initState : ParserState :=
  { gps_known := [], gps_discovered := [], gps_all := [], telemetry := [],
    coord_history := [], region_center := none }

/-- `SmartGPSParserV2.update_region_center`. -/
def update_region_center (st : ParserState) : ParserState :=
  if st.coord_history = [] then st
  else { st with region_center := some (regionMediansOf st.coord_history) }

/-- `SmartGPSParserV2.parse_known_gps_absolute`.  The `try` never fires: the
length guard guarantees full slices for every unpack. -/
def parse_known_gps_absolute (record : List Nat) : Option GpsSample :=
  if record.length < 36 then none
  else if ¬(byteAt record 1 = 0x23 ∧ byteAt record 2 = 0x52) then none
  else if !(is_valid_coordinate (f32At record 24) (f32At record 28)) then none
  else some
    { source := .knownType, type_hex := (record.drop 1).take 3,
      latitude := some (f32At record 24), longitude := some (f32At record 28),
      altitude := some (f32At record 32), counter := some (leUInt32 record 4),
      x := none, y := none, z := none, record_offset := 24, record_pos := none }

/-- `SmartGPSParserV2.parse_known_gps_relative`. -/
def parse_known_gps_relative (record : List Nat) : Option GpsSample :=
  if record.length < 40 then none
  else if ¬(byteAt record 1 = 0x27 ∧ byteAt record 2 = 0x52) then none
  else some
    { source := .knownRelative, type_hex := (record.drop 1).take 3,
      latitude := none, longitude := none, altitude := none,
      counter := some (leUInt32 record 4),
      x := some (f32At record 20), y := some (f32At record 24),
      z := some (f32At record 28), record_offset := 20, record_pos := none }

/-- `SmartGPSParserV2.parse_ks_telemetry` (`record[1:3] == b'KS'` is bytes
`0x4B 0x53`). -/
def parse_ks_telemetry (record : List Nat) : Option TelemetrySample :=
  if record.length < 77 then none
  else if ¬(byteAt record 1 = 0x4B ∧ byteAt record 2 = 0x53) then none
  else some
    { counter := leUInt32 record 4, param1 := f32At record 32,
      param2 := f32At record 36, param3 := f32At record 40 }

/-- `SmartGPSParserV2.find_records`, written as one forward scan: bytes before
the first `0x7E` are skipped, each record starts at a `0x7E` and runs to the
byte before the next `0x7E` (or the end of the buffer), paired with its start
position. -/
def findRecordsAux (pos : Nat) (cur : Option (Nat × List Nat)) :
    List Nat → List (Nat × List Nat)
  | [] =>
    match cur with
    | none => []
    | some (p, acc) => [(p, acc.reverse)]
  | b :: rest =>
    if b = 0x7E then
      match cur with
      | none => findRecordsAux (pos + 1) (some (pos, [b])) rest
      | some (p, acc) => (p, acc.reverse) :: findRecordsAux (pos + 1) (some (pos, [b])) rest
    else
      match cur with
      | none => findRecordsAux (pos + 1) none rest
      | some (p, acc) => findRecordsAux (pos + 1) (some (p, b :: acc)) rest

/-- `self.records = self.find_records()`. -/
def find_records (data : List Nat) : List (Nat × List Nat) :=
  findRecordsAux 0 none data

/-- The coordinate-history entry appended for a geographic sample:
`(gps['latitude'], gps['longitude'])`.  Both fields are present and finite at
every call site (the sample passed `is_valid_coordinate`). -/
def histEntry (g : GpsSample) : ℚ × ℚ :=
  ((g.latitude.getD (.finite 0)).q, (g.longitude.getD (.finite 0)).q)

/-- Phase 1 of `parse_all` (known GPS collection), body of the first record
loop; the record position is bound by the loop but unused in this phase. -/
def phase1StepR (st : ParserState) (record : List Nat) : ParserState :=
  if record.length < 4 then st
  else if byteAt record 1 = 0x23 ∧ byteAt record 2 = 0x52 then
    match parse_known_gps_absolute record with
    | some g =>
      { st with
          gps_known := st.gps_known ++ [g]
          gps_all := st.gps_all ++ [g]
          coord_history := st.coord_history ++ [histEntry g] }
    | none => st
  else if byteAt record 1 = 0x27 ∧ byteAt record 2 = 0x52 then
    match parse_known_gps_relative record with
    | some g => { st with gps_known := st.gps_known ++ [g] }
    | none => st
  else st

/-- Phase-1 loop body on a `(position, record)` pair of `self.records`. -/
def phase1Step (st : ParserState) (pr : Nat × List Nat) : ParserState :=
  phase1StepR st pr.2

/-- State at the end of phase 1 of `parse_all`. -/
def phase1 (data : List Nat) : ParserState :=
  (find_records data).foldl phase1Step initState

/-- State after the one-shot region refresh between the two phases
(`if len(self.coord_history) > 0: self.update_region_center()`). -/
def midState (data : List Nat) : ParserState :=
  let st := phase1 data
  if 0 < st.coord_history.length then update_region_center st else st

/-- The discovered-GPS dict appended by `parse_all` for the winning candidate. -/
def mkDiscovered (pos : Nat) (record : List Nat) (c : GpsCandidate) : GpsSample :=
  { source := .discovered, type_hex := (record.drop 1).take 3,
    latitude := some c.latitude, longitude := some c.longitude,
    altitude := c.altitude, counter := none, x := none, y := none, z := none,
    record_offset := c.offset, record_pos := some pos }

/-- The appends `parse_all` performs when the heuristic locator accepts
candidate `best` of `record` at file position `pos`: the discovered sample
joins `gps_discovered` and `gps_all` and the coordinate joins the history. -/
def appendDiscovered (pos : Nat) (record : List Nat) (st : ParserState)
    (best : GpsCandidate) : ParserState :=
  { st with
      gps_discovered := st.gps_discovered ++ [mkDiscovered pos record best]
      gps_all := st.gps_all ++ [mkDiscovered pos record best]
      coord_history := st.coord_history ++ [(best.latitude.q, best.longitude.q)] }

/-- The accepted-candidate branch of the phase-2 loop: the appends above,
followed by `if len(self.coord_history) % 100 == 0: self.update_region_center()`. -/
def acceptDiscovered (pos : Nat) (record : List Nat) (st : ParserState)
    (best : GpsCandidate) : ParserState :=
  if (appendDiscovered pos record st best).coord_history.length % 100 = 0 then
    update_region_center (appendDiscovered pos record st best)
  else appendDiscovered pos record st best

/-- Phase 2 of `parse_all` (heuristic search), body of the second record loop.
`type_hex.startswith(('2352', '2752'))` for a record of length ≥ 4 is exactly a
test of bytes 1 and 2, and `record[1:3] == b'KS'` a test for `0x4B 0x53`. -/
def phase2StepR (dist : ℚ → ℚ → ℚ → ℚ → ℚ) (st : ParserState)
    (pos : Nat) (record : List Nat) : ParserState :=
  if record.length < 4 then st
  else if (byteAt record 1 = 0x23 ∧ byteAt record 2 = 0x52) ∨
      (byteAt record 1 = 0x27 ∧ byteAt record 2 = 0x52) then st
  else if byteAt record 1 = 0x4B ∧ byteAt record 2 = 0x53 then
    match parse_ks_telemetry record with
    | some t => { st with telemetry := st.telemetry ++ [t] }
    | none => st
  else
    match (find_gps_in_record dist st.coord_history st.region_center record).head? with
    | none => st
    | some best => acceptDiscovered pos record st best

/-- Phase-2 loop body on a `(position, record)` pair of `self.records`. -/
def phase2Step (dist : ℚ → ℚ → ℚ → ℚ → ℚ) (st : ParserState)
    (pr : Nat × List Nat) : ParserState :=
  phase2StepR dist st pr.1 pr.2

/-- `SmartGPSParserV2.parse_all` (statistics printing omitted). -/
def parseAll (dist : ℚ → ℚ → ℚ → ℚ → ℚ) (data : List Nat) : ParserState :=
  (find_records data).foldl (phase2Step dist) (midState data)

/-- A concrete admissible distance function used to instantiate witnesses and
counterexamples; it agrees with the haversine distance on coincident points. -/
def dist0 : ℚ → ℚ → ℚ → ℚ → ℚ := fun _ _ _ _ => 0

/-- A `(lon, lat, alt)` triple as assembled by `export_trajectory_kml` before
interpolation (`alt` is `g.get('altitude')`, possibly absent). -/
abbrev Coord3 := F32 × F32 × Option F32

/-- Placeholder triple for out-of-range `getD` accesses; every access the source
performs is in range, so it is never observed. -/
def junk3 : Coord3 := (.finite 0, .finite 0, none)

/-- The test `coords[j][2] and coords[j][2] > 0` applied to an optional altitude:
the value, when it is present, truthy and positive. -/
def posAlt : Option F32 → Option F32
  | none => none
  | some v => if F32.truthy v && F32.lt (.finite 0) v then some v else none

/-- The backward neighbour scan `for j in range(i-1, max(0, i-20), -1)` of
`interpolate_altitude`, entered at `j` and stopping once `j ≤ stop` (the Python
stop bound is exclusive, so index `stop` itself is never examined — in
particular index 0 never is, since `stop = max(0, i-20) ≥ 0`). -/
def scanBackAux (coords : List Coord3) (stop : Nat) : Nat → Option F32
  | 0 => none
  | j + 1 =>
    if j + 1 ≤ stop then none
    else
      match posAlt (coords.getD (j + 1) junk3).2.2 with
      | some a => some a
      | none => scanBackAux coords stop j

/-- The forward neighbour scan `for j in range(i+1, min(len(coords), i+20))` of
`interpolate_altitude`, entered at `j` with `fuel` iterations left. -/
def scanFwdAux (coords : List Coord3) : Nat → Nat → Option F32
  | 0, _ => none
  | fuel + 1, j =>
    match posAlt (coords.getD j junk3).2.2 with
    | some a => some a
    | none => scanFwdAux coords fuel (j + 1)

/-- The replacement altitude `interpolate_altitude` computes for position `i`
(the body of the `if alt is None or alt <= 0` branch). -/
def fillAlt (coords : List Coord3) (i : Nat) : F32 :=
  match scanBackAux coords (i - 20) (i - 1),
      scanFwdAux coords (min coords.length (i + 20) - (i + 1)) (i + 1) with
  | some p, some n => halfSum p n
  | some p, none => p
  | none, some n => n
  | none, none => .finite 100

/-- The `alt is None or alt <= 0` test selecting points for replacement. -/
def altBad : Option F32 → Bool
  | none => true
  | some a => F32.le a (.finite 0)

/-- `SmartGPSParserV2.interpolate_altitude`. -/
def interpolate_altitude (coords : List Coord3) : List (F32 × F32 × F32) :=
  (List.range coords.length).map fun i =>
    let c := coords.getD i junk3
    if altBad c.2.2 then (c.1, c.2.1, fillAlt coords i)
    else (c.1, c.2.1, (c.2.2).getD (.finite 0))

/-- The `for i, (lon, lat, alt) in enumerate(coords): … if dist < …: return i`
loop shape: index of the first element satisfying `p`, if any. -/
def findFirstIdx (p : α → Bool) : List α → Option Nat
  | [] => none
  | x :: xs => if p x then some 0 else (findFirstIdx p xs).map (· + 1)

/-- The middle-third slice `coords[len//3 : 2*len//3]`. -/
def middleThird (coords : List Coord3) : List Coord3 :=
  (coords.drop (coords.length / 3)).take (2 * coords.length / 3 - coords.length / 3)

/-- Mean latitude of a (non-empty) coordinate slice, `sum(lats)/len(lats)`;
triples are `(lon, lat, alt)`. -/
def meanLat (l : List Coord3) : ℚ := qDivNat (qSum (l.map fun c => c.2.1.q)) l.length

/-- Mean longitude of a (non-empty) coordinate slice. -/
def meanLon (l : List Coord3) : ℚ := qDivNat (qSum (l.map fun c => c.1.q)) l.length

/-- `SmartGPSParserV2.find_real_start_point` (`max_distance = 30`): index of the
first point within 30 km of the middle-third centroid, 0 when none exists or
fewer than 20 points are present. -/
def find_real_start_point (dist : ℚ → ℚ → ℚ → ℚ → ℚ) (coords : List Coord3) : Nat :=
  if coords.length < 20 then 0
  else if middleThird coords = [] then 0
  else
    match findFirstIdx
      (fun c => decide (dist c.2.1.q c.1.q (meanLat (middleThird coords))
        (meanLon (middleThird coords)) < 30)) coords with
    | some i => i
    | none => 0

/-- The geographic projection of `gps_all` built at the top of
`export_trajectory_kml`:
`[(g['longitude'], g['latitude'], g.get('altitude')) for g in gps_all if 'latitude' in g and 'longitude' in g]`. -/
def rawCoords (s : ParserState) : List Coord3 :=
  s.gps_all.filterMap fun g =>
    match g.longitude, g.latitude with
    | some lo, some la => some (lo, la, g.altitude)
    | _, _ => none

/-- The outlier count of the safety override in `export_trajectory_kml`: how
many of the first `min(10, len)` raw points lie more than 30 km from the
middle-third centroid. -/
def outlierCount (dist : ℚ → ℚ → ℚ → ℚ → ℚ) (raw : List Coord3)
    (cla clo : ℚ) : Nat :=
  ((List.range (min 10 raw.length)).filter fun i =>
    decide (30 < dist (raw.getD i junk3).2.1.q (raw.getD i junk3).1.q cla clo)).length

/-- The `start_idx` computed by `export_trajectory_kml`: the value of
`find_real_start_point`, overridden to 10 when it is below 5, more than 50 raw
points exist, and more than 5 of the first 10 raw points lie over 30 km from
the middle-third centroid. -/
def exportStartIdx (dist : ℚ → ℚ → ℚ → ℚ → ℚ) (raw : List Coord3) : Nat :=
  if find_real_start_point dist raw < 5 ∧ 50 < raw.length then
    if middleThird raw = [] then find_real_start_point dist raw
    else if 5 < outlierCount dist raw (meanLat (middleThird raw)) (meanLon (middleThird raw)) then 10
    else find_real_start_point dist raw
  else find_real_start_point dist raw

/-- The raw list after `if start_idx > 0: raw_coords = raw_coords[start_idx:]`. -/
def trimmedRaw (dist : ℚ → ℚ → ℚ → ℚ → ℚ) (s : ParserState) : List Coord3 :=
  if 0 < exportStartIdx dist (rawCoords s) then
    (rawCoords s).drop (exportStartIdx dist (rawCoords s))
  else rawCoords s

/-- `SmartGPSParserV2.export_trajectory_kml`, modelled up to the written
coordinate list: `none` when the function returns without writing the KML file,
`some coords` when it writes a document whose path geometry (and start/end
markers) serialize exactly the triples of `coords`. -/
def export_trajectory_kml (dist : ℚ → ℚ → ℚ → ℚ → ℚ) (s : ParserState) :
    Option (List (F32 × F32 × F32)) :=
  if rawCoords s = [] then none
  else if interpolate_altitude (trimmedRaw dist s) = [] then none
  else some (interpolate_altitude (trimmedRaw dist s))

/-- One CSV row of `export_all_gps_csv`, in column order
`source, type_hex, latitude, longitude, altitude, counter, record_offset`
(`none` renders as the empty string). -/
structure CsvRow where
  source : GpsSource
  type_hex : List Nat
  latitude : Option F32
  longitude : Option F32
  altitude : Option F32
  counter : Option Nat
  record_offset : Nat
deriving DecidableEq

/-- The row written for one `gps_all` entry (`gps.get(key, '')` per column). -/
def rowOf (g : GpsSample) : CsvRow :=
  { source := g.source, type_hex := g.type_hex, latitude := g.latitude,
    longitude := g.longitude, altitude := g.altitude, counter := g.counter,
    record_offset := g.record_offset }

/-- `SmartGPSParserV2.export_all_gps_csv`, modelled as the list of data rows
written after the header. -/
def export_all_gps_csv (s : ParserState) : List CsvRow :=
  s.gps_all.map rowOf

/-- Placeholder row for out-of-range `getD` accesses in theorem statements. -/
def junkRow : CsvRow :=
  { source := .discovered, type_hex := [], latitude := none, longitude := none,
    altitude := none, counter := none, record_offset := 0 }

/-- Placeholder sample for out-of-range `getD` accesses in theorem statements. -/
def junkSample : GpsSample :=
  { source := .discovered, type_hex := [], latitude := none, longitude := none,
    altitude := none, counter := none, x := none, y := none, z := none,
    record_offset := 0, record_pos := none }

/-!  Auxiliary lemmas. -/

theorem foldl_preserves {α β : Type} (P : α → Prop) (step : α → β → α)
    (hstep : ∀ a b, P a → P (step a b)) :
    ∀ (l : List β) (a : α), P a → P (l.foldl step a)
  | [], _, h => h
  | b :: l, a, h => foldl_preserves P step hstep l (step a b) (hstep a b h)

theorem filterMap_range'_nil {α : Type} (f : Nat → Option α) :
    ∀ (n a : Nat), (List.range' a n).filterMap f = [] →
      ∀ o, a ≤ o → o < a + n → f o = none := by
  intro n
  induction n with
  | zero => intro a _ o h1 h2; omega
  | succ n ih =>
    intro a h o h1 h2
    rw [List.range'_succ, List.filterMap_cons] at h
    cases hfa : f a with
    | some b => rw [hfa] at h; exact absurd h (by simp)
    | none =>
      rw [hfa] at h
      rcases Nat.eq_or_lt_of_le h1 with rfl | hlt
      · exact hfa
      · exact ih (a + 1) h o hlt (by omega)

theorem filterMap_range'_head_some {α : Type} (f : Nat → Option α) :
    ∀ (n a : Nat) (c : α), ((List.range' a n).filterMap f).head? = some c →
      ∃ o, a ≤ o ∧ o < a + n ∧ f o = some c ∧
        ∀ o', a ≤ o' → o' < o → f o' = none := by
  intro n
  induction n with
  | zero =>
    intro a c h
    rw [show List.range' a 0 = [] from rfl] at h
    exact Option.noConfusion h
  | succ n ih =>
    intro a c h
    rw [List.range'_succ, List.filterMap_cons] at h
    cases hfa : f a with
    | some b =>
      rw [hfa] at h
      simp only [List.head?_cons, Option.some.injEq] at h
      exact ⟨a, Nat.le_refl a, by omega, h ▸ hfa, fun o' h1 h2 => by omega⟩
    | none =>
      rw [hfa] at h
      obtain ⟨o, ho1, ho2, ho3, ho4⟩ := ih (a + 1) c h
      refine ⟨o, by omega, by omega, ho3, fun o' h1 h2 => ?_⟩
      rcases Nat.eq_or_lt_of_le h1 with rfl | hlt
      · exact hfa
      · exact ho4 o' hlt h2

theorem getD_map_range {α : Type} (f : Nat → α) (n i : Nat) (d : α) (h : i < n) :
    ((List.range n).map f).getD i d = f i := by
  rw [List.getD_eq_getElem?_getD, List.getElem?_map, List.getElem?_range h]
  rfl

theorem getD_mem {α : Type} (l : List α) (i : Nat) (d : α) (h : i < l.length) :
    l.getD i d ∈ l := by
  rw [List.getD_eq_getElem?_getD, List.getElem?_eq_getElem h]
  exact List.getElem_mem _

theorem findFirstIdx_lt_length {α : Type} (p : α → Bool) :
    ∀ (l : List α) (i : Nat), findFirstIdx p l = some i → i < l.length := by
  intro l
  induction l with
  | nil => intro i h; simp [findFirstIdx] at h
  | cons x xs ih =>
    intro i h
    rw [findFirstIdx] at h
    by_cases hp : p x
    · rw [if_pos hp] at h
      simp only [Option.some.injEq] at h
      simp [← h]
    · rw [if_neg hp] at h
      cases hf : findFirstIdx p xs with
      | none => rw [hf] at h; simp at h
      | some j =>
        rw [hf] at h
        simp only [Option.map_some', Option.some.injEq] at h
        have := ih j hf
        simp only [List.length_cons]
        omega

theorem update_region_center_gps_all (st : ParserState) :
    (update_region_center st).gps_all = st.gps_all := by
  rw [update_region_center]; split <;> rfl

theorem update_region_center_gps_discovered (st : ParserState) :
    (update_region_center st).gps_discovered = st.gps_discovered := by
  rw [update_region_center]; split <;> rfl

theorem update_region_center_coord_history (st : ParserState) :
    (update_region_center st).coord_history = st.coord_history := by
  rw [update_region_center]; split <;> rfl

theorem mkRat_one_hundredth : mkRat 1 100 = (1 / 100 : ℚ) := by norm_num

theorem qAdd_eq_add (a b : ℚ) : qAdd a b = a + b := by
  have ha : ((a.den : ℚ)) ≠ 0 := by exact_mod_cast a.den_nz
  have hb : ((b.den : ℚ)) ≠ 0 := by exact_mod_cast b.den_nz
  have h1 : (a.num : ℚ) = a * a.den := (div_eq_iff ha).1 (Rat.num_div_den a)
  have h2 : (b.num : ℚ) = b * b.den := (div_eq_iff hb).1 (Rat.num_div_den b)
  rw [qAdd, Rat.divInt_eq_div]
  push_cast
  rw [div_eq_iff (by exact mul_ne_zero ha hb), h1, h2]
  ring

theorem qHalf_eq_half (a : ℚ) : qHalf a = a / 2 := by
  rw [qHalf, Rat.divInt_eq_div]
  push_cast
  conv_rhs => rw [← Rat.num_div_den a]
  rw [div_div]

theorem posAlt_pos (o : Option F32) (v : F32) (h : posAlt o = some v) :
    F32.lt (.finite 0) v = true := by
  cases o with
  | none => exact Option.noConfusion h
  | some w =>
    rw [posAlt] at h
    by_cases hc : (F32.truthy w && F32.lt (.finite 0) w) = true
    · rw [if_pos hc] at h
      cases h
      rw [Bool.and_eq_true] at hc
      exact hc.2
    · rw [if_neg hc] at h
      exact Option.noConfusion h

theorem le_zero_false_of_pos (v : F32) (h : F32.lt (.finite 0) v = true) :
    F32.le v (.finite 0) = false := by
  cases v <;> simp [F32.lt, F32.le] at h ⊢
  linarith

theorem scanBackAux_pos (coords : List Coord3) (stop : Nat) :
    ∀ j a, scanBackAux coords stop j = some a → F32.lt (.finite 0) a = true := by
  intro j
  induction j with
  | zero =>
    intro a h
    rw [scanBackAux] at h
    exact Option.noConfusion h
  | succ j ih =>
    intro a h
    rw [scanBackAux] at h
    by_cases hs : j + 1 ≤ stop
    · rw [if_pos hs] at h
      exact Option.noConfusion h
    · rw [if_neg hs] at h
      cases hp : posAlt (coords.getD (j + 1) junk3).2.2 with
      | some b =>
        rw [hp] at h
        cases h
        exact posAlt_pos _ _ hp
      | none =>
        rw [hp] at h
        exact ih a h

theorem scanFwdAux_pos (coords : List Coord3) :
    ∀ fuel j a, scanFwdAux coords fuel j = some a → F32.lt (.finite 0) a = true := by
  intro fuel
  induction fuel with
  | zero =>
    intro j a h
    rw [scanFwdAux] at h
    exact Option.noConfusion h
  | succ fuel ih =>
    intro j a h
    rw [scanFwdAux] at h
    cases hp : posAlt (coords.getD j junk3).2.2 with
    | some b =>
      rw [hp] at h
      cases h
      exact posAlt_pos _ _ hp
    | none =>
      rw [hp] at h
      exact ih (j + 1) a h

theorem halfSum_pos (p n : F32) (hp : F32.lt (.finite 0) p = true)
    (hn : F32.lt (.finite 0) n = true) :
    F32.le (halfSum p n) (.finite 0) = false := by
  cases p <;> cases n <;>
    (simp_all [halfSum, F32.le, F32.lt, qHalf_eq_half, qAdd_eq_add]; try linarith)

theorem scanBackAux_eq_findSome (coords : List Coord3) (stop : Nat) :
    ∀ j, scanBackAux coords stop j =
      ((List.range' (stop + 1) (j - stop)).reverse).findSome?
        (fun o => posAlt (coords.getD o junk3).2.2) := by
  intro j
  induction j with
  | zero =>
    rw [show (0 : Nat) - stop = 0 from by omega]
    rfl
  | succ j ih =>
    by_cases hs : j + 1 ≤ stop
    · rw [show j + 1 - stop = 0 from by omega]
      rw [scanBackAux, if_pos hs]
      rfl
    · rw [show j + 1 - stop = (j - stop) + 1 from by omega, List.range'_concat,
        List.reverse_append, show stop + 1 + 1 * (j - stop) = j + 1 from by omega]
      rw [scanBackAux, if_neg hs]
      show _ = List.findSome? _ (_ :: _)
      rw [List.findSome?_cons]
      cases hp : posAlt (coords.getD (j + 1) junk3).2.2 with
      | some b => rfl
      | none => simpa using ih

theorem foldl_min_from_some (dist : ℚ → ℚ → ℚ → ℚ → ℚ) (lat lon : ℚ) :
    ∀ (l : List (ℚ × ℚ)) (m0 : ℚ),
      ∃ m, l.foldl (coherenceStep dist lat lon) (some m0) = some m ∧
        (m = m0 ∨ ∃ p ∈ l, dist lat lon p.1 p.2 = m) ∧ m ≤ m0 ∧
        ∀ p ∈ l, m ≤ dist lat lon p.1 p.2 := by
  intro l
  induction l with
  | nil => exact fun m0 => ⟨m0, rfl, Or.inl rfl, le_refl m0, by simp⟩
  | cons q rest ih =>
    intro m0
    obtain ⟨m, hm, hmem, hle, hbound⟩ := ih (min m0 (dist lat lon q.1 q.2))
    rw [List.foldl_cons]
    refine ⟨m, hm, ?_, ?_, ?_⟩
    · rcases hmem with h | ⟨p, hp, he⟩
      · rcases min_cases m0 (dist lat lon q.1 q.2) with ⟨he, _⟩ | ⟨he, _⟩
        · exact Or.inl (h.trans he)
        · exact Or.inr ⟨q, List.mem_cons_self q rest, (h.trans he).symm⟩
      · exact Or.inr ⟨p, List.mem_cons_of_mem q hp, he⟩
    · exact hle.trans (min_le_left _ _)
    · intro p hp
      rcases List.mem_cons.1 hp with rfl | hp'
      · exact hle.trans (min_le_right _ _)
      · exact hbound p hp'

theorem foldl_min_from_none (dist : ℚ → ℚ → ℚ → ℚ → ℚ) (lat lon : ℚ)
    (l : List (ℚ × ℚ)) (hl : l ≠ []) :
    ∃ m, l.foldl (coherenceStep dist lat lon) none = some m ∧
      (∃ p ∈ l, dist lat lon p.1 p.2 = m) ∧ ∀ p ∈ l, m ≤ dist lat lon p.1 p.2 := by
  cases l with
  | nil => exact absurd rfl hl
  | cons q rest =>
    rw [List.foldl_cons]
    obtain ⟨m, hm, hmem, hle, hbound⟩ := foldl_min_from_some dist lat lon rest (dist lat lon q.1 q.2)
    refine ⟨m, hm, ?_, ?_⟩
    · rcases hmem with h | ⟨p, hp, he⟩
      · exact ⟨q, List.mem_cons_self q rest, h.symm⟩
      · exact ⟨p, List.mem_cons_of_mem q hp, he⟩
    · intro p hp
      rcases List.mem_cons.1 hp with rfl | hp'
      · exact hle
      · exact hbound p hp'

theorem is_valid_coordinate_elim (la lo : F32) (h : is_valid_coordinate la lo = true) :
    ∃ qa qb : ℚ, la = .finite qa ∧ lo = .finite qb ∧
      -90 ≤ qa ∧ qa ≤ 90 ∧ -180 ≤ qb ∧ qb ≤ 180 ∧
      ¬(|qa| < 1 / 100 ∧ |qb| < 1 / 100) := by
  cases la with
  | finite qa =>
    cases lo with
    | finite qb =>
      refine ⟨qa, qb, rfl, rfl, ?_⟩
      rw [is_valid_coordinate] at h
      split at h
      · exact Bool.noConfusion h
      · next h1 =>
        split at h
        · exact Bool.noConfusion h
        · next h2 =>
          split at h
          · exact Bool.noConfusion h
          · next h3 =>
            simp only [F32.le, F32.lt, F32.abs, mkRat_one_hundredth] at h1 h2 h3
            simp only [Bool.not_eq_true', Bool.not_eq_false, Bool.and_eq_true,
              decide_eq_true_eq] at h1 h2 h3
            refine ⟨h1.1, h1.2, h2.1, h2.2, fun hc => ?_⟩
            exact h3 ⟨by exact_mod_cast hc.1, by exact_mod_cast hc.2⟩
    | inf => rw [is_valid_coordinate] at h; simp [F32.le] at h
    | neginf => rw [is_valid_coordinate] at h; simp [F32.le] at h
    | nan => rw [is_valid_coordinate] at h; simp [F32.le] at h
  | inf => rw [is_valid_coordinate] at h; simp [F32.le] at h
  | neginf => rw [is_valid_coordinate] at h; simp [F32.le] at h
  | nan => rw [is_valid_coordinate] at h; simp [F32.le] at h

theorem candidateAt_elim (dist : ℚ → ℚ → ℚ → ℚ → ℚ) (hist : List (ℚ × ℚ))
    (center : Option (ℚ × ℚ)) (record : List Nat) (o : Nat) (c : GpsCandidate)
    (h : candidateAt dist hist center record o = some c) :
    c.offset = o ∧ c.latitude = f32At record o ∧ c.longitude = f32At record (o + 4) ∧
      is_valid_coordinate c.latitude c.longitude = true := by
  rw [candidateAt] at h
  split at h
  · exact Option.noConfusion h
  · next hval =>
    split at h
    · exact Option.noConfusion h
    · split at h
      · exact Option.noConfusion h
      · split at h
        · exact Option.noConfusion h
        · cases h
          refine ⟨rfl, rfl, rfl, ?_⟩
          cases hv : is_valid_coordinate (f32At record o) (f32At record (o + 4)) with
          | true => rfl
          | false => exact absurd (by rw [hv]; rfl) hval

theorem scanFwdAux_eq_findSome (coords : List Coord3) :
    ∀ fuel j, scanFwdAux coords fuel j =
      (List.range' j fuel).findSome? (fun o => posAlt (coords.getD o junk3).2.2) := by
  intro fuel
  induction fuel with
  | zero => intro j; rfl
  | succ fuel ih =>
    intro j
    rw [List.range'_succ, scanFwdAux, List.findSome?_cons]
    cases hp : posAlt (coords.getD j junk3).2.2 with
    | some b => rfl
    | none => exact ih (j + 1)

theorem interpolate_length (coords : List Coord3) :
    (interpolate_altitude coords).length = coords.length := by
  rw [interpolate_altitude, List.length_map, List.length_range]

theorem find_real_start_lt (dist : ℚ → ℚ → ℚ → ℚ → ℚ) (raw : List Coord3)
    (h : raw ≠ []) : find_real_start_point dist raw < raw.length := by
  have hp : 0 < raw.length := List.length_pos.2 h
  rw [find_real_start_point]
  split
  · exact hp
  · split
    · exact hp
    · split
      · next i heq => exact findFirstIdx_lt_length _ raw i heq
      · exact hp

theorem exportStartIdx_lt (dist : ℚ → ℚ → ℚ → ℚ → ℚ) (raw : List Coord3)
    (h : raw ≠ []) : exportStartIdx dist raw < raw.length := by
  rw [exportStartIdx]
  split
  · next hc =>
    split
    · exact find_real_start_lt dist raw h
    · split
      · omega
      · exact find_real_start_lt dist raw h
  · exact find_real_start_lt dist raw h

/-- C3: the geographic-coherence check accepts every candidate outright when the
coordinate history is empty; for a non-empty history it accepts exactly when the
minimum distance from the candidate to the most recent at-most-10 history
entries is strictly below 50 km — equivalently, when some entry of that window
is within 50 km.  `dist` abstracts the haversine distance (Earth radius
6371 km), which is floating-point transcendental arithmetic; the theorem holds
for every distance function, hence for the haversine in particular. -/
theorem C3_coherence_characterization (dist : ℚ → ℚ → ℚ → ℚ → ℚ)
    (hist : List (ℚ × ℚ)) (lat lon : ℚ) :
    is_geographically_coherent dist hist lat lon = true ↔
      (hist = [] ∨
        ∃ p ∈ hist.drop (hist.length - 10), dist lat lon p.1 p.2 < 50) := by
  rw [is_geographically_coherent]
  by_cases he : hist = []
  · rw [if_pos he]
    simp [he]
  · rw [if_neg he]
    have hrec : hist.drop (hist.length - 10) ≠ [] := by
      intro hc
      have hlen := congrArg List.length hc
      rw [List.length_drop] at hlen
      have hp : 0 < hist.length := List.length_pos.2 he
      simp at hlen
      omega
    obtain ⟨m, hm, ⟨p0, hp0, hp0e⟩, hbound⟩ :=
      foldl_min_from_none dist lat lon (hist.drop (hist.length - 10)) hrec
    rw [hm]
    constructor
    · intro hdec
      exact Or.inr ⟨p0, hp0, hp0e ▸ (by simpa using hdec)⟩
    · rintro (hc | ⟨p, hp, hlt⟩)
      · exact absurd hc he
      · simpa using lt_of_le_of_lt (hbound p hp) hlt

/-- C10: the trajectory exporter writes nothing exactly when the geographic
subset of `gps_all` (the raw coordinate projection) is empty; in particular an
empty coordinate set at export time produces no trajectory document at all. -/
theorem C10_empty_export (dist : ℚ → ℚ → ℚ → ℚ → ℚ) (s : ParserState) :
    export_trajectory_kml dist s = none ↔ rawCoords s = [] := by
  rw [export_trajectory_kml]
  by_cases h : rawCoords s = []
  · rw [if_pos h]
    simp [h]
  · rw [if_neg h]
    have htrim : trimmedRaw dist s ≠ [] := by
      rw [trimmedRaw]
      split
      · intro hc
        have hlen := congrArg List.length hc
        rw [List.length_drop] at hlen
        have := exportStartIdx_lt dist (rawCoords s) h
        simp at hlen
        omega
      · exact h
    have hco : interpolate_altitude (trimmedRaw dist s) ≠ [] := by
      intro hc
      have := congrArg List.length hc
      rw [interpolate_length] at this
      exact htrim (List.length_eq_zero.1 (by simpa using this))
    rw [if_neg hco]
    simp [h]

theorem medianAt_mem (l : List ℚ) (hl : l ≠ []) : medianAt l ∈ l := by
  have hlen : (sortQ l).length = l.length := List.length_insertionSort _ l
  have hpos : 0 < l.length := List.length_pos.2 hl
  have hidx : (sortQ l).length / 2 < (sortQ l).length := by omega
  have hmem := getD_mem (sortQ l) ((sortQ l).length / 2) 0 hidx
  rw [medianAt]
  exact ((List.perm_insertionSort _ l).mem_iff).1 hmem

/-- Definition following C6's words (spec side, for comparison only): the
median of a sorted list taken at the lower-median index `(n-1)/2`, which for an
even-length list is the smaller of the two middle elements. -/
def specLowerMedian (l : List ℚ) : ℚ := (sortQ l).getD ((l.length - 1) / 2) 0

/-- The concrete two-entry coordinate history used to separate the code's
median choice from the claimed lower median. -/
def histC6 : List (ℚ × ℚ) := [(10, 10), (20, 20)]

/-- C6 counterexample: on the two-point history `[(10,10), (20,20)]`,
`update_region_center` stores the element at index `len//2 = 1` of the sorted
axis values — the *upper* median `(20, 20)` — whereas the claim's lower-median
reading demands `(10, 10)`. -/
theorem C6_counterexample :
    (update_region_center { initState with coord_history := histC6 }).region_center =
      some (20, 20) ∧
    specLowerMedian (histC6.map Prod.fst) = 10 ∧
    ((20 : ℚ), (20 : ℚ)) ≠ ((10 : ℚ), (10 : ℚ)) :=
  ⟨by decide, by decide, by decide⟩

/-- C6 amended: for every non-empty coordinate history, `update_region_center`
stores as the `RegionEstimate` the per-axis value at index `⌊n/2⌋` of the
sorted latitude list and of the sorted longitude list — the *upper* median for
even-length histories — and each stored component is an actual accumulated
coordinate value of its axis. -/
theorem C6_upper_median (st : ParserState) (h : st.coord_history ≠ []) :
    (update_region_center st).region_center =
      some (medianAt (st.coord_history.map Prod.fst),
        medianAt (st.coord_history.map Prod.snd)) ∧
    medianAt (st.coord_history.map Prod.fst) ∈ st.coord_history.map Prod.fst ∧
    medianAt (st.coord_history.map Prod.snd) ∈ st.coord_history.map Prod.snd := by
  rw [update_region_center, if_neg h]
  exact ⟨rfl, medianAt_mem _ (fun hc => h (List.map_eq_nil_iff.1 hc)),
    medianAt_mem _ (fun hc => h (List.map_eq_nil_iff.1 hc))⟩

/-- C6 amended, witness at the concrete history `[(10,10), (20,20)]`. -/
theorem C6_upper_median_witness :
    ({ initState with coord_history := histC6 } : ParserState).coord_history ≠ [] ∧
    ((update_region_center { initState with coord_history := histC6 }).region_center =
      some (medianAt (({ initState with coord_history := histC6 } : ParserState).coord_history.map Prod.fst),
        medianAt (({ initState with coord_history := histC6 } : ParserState).coord_history.map Prod.snd)) ∧
      medianAt (({ initState with coord_history := histC6 } : ParserState).coord_history.map Prod.fst) ∈
        ({ initState with coord_history := histC6 } : ParserState).coord_history.map Prod.fst ∧
      medianAt (({ initState with coord_history := histC6 } : ParserState).coord_history.map Prod.snd) ∈
        ({ initState with coord_history := histC6 } : ParserState).coord_history.map Prod.snd) :=
  ⟨by decide, C6_upper_median { initState with coord_history := histC6 } (by decide)⟩

/-- C7: the absolute-GPS decoder returns a sample exactly when the record is at
least 36 bytes long, its tag bytes (after the delimiter) are `0x23 0x52`, and
the decoded latitude/longitude pass the `CoordinateSample` validity invariant
(field decodes themselves always succeed, because the length guard ensures
every unpacked slice is full); on success the sample carries the little-endian
uint32 counter at byte offset 4 and the little-endian float32 latitude,
longitude and altitude at offsets 24, 28 and 32.  In every other case it
returns nothing. -/
theorem C7_absolute_decoder (record : List Nat) :
    parse_known_gps_absolute record =
      if 36 ≤ record.length ∧ byteAt record 1 = 0x23 ∧ byteAt record 2 = 0x52 ∧
          is_valid_coordinate (f32At record 24) (f32At record 28) = true then
        some
          { source := .knownType, type_hex := (record.drop 1).take 3,
            latitude := some (f32At record 24), longitude := some (f32At record 28),
            altitude := some (f32At record 32), counter := some (leUInt32 record 4),
            x := none, y := none, z := none, record_offset := 24, record_pos := none }
      else none := by
  rw [parse_known_gps_absolute]
  by_cases h1 : record.length < 36
  · rw [if_pos h1, if_neg (fun hc => absurd hc.1 (by omega))]
  · rw [if_neg h1]
    by_cases h2 : byteAt record 1 = 0x23 ∧ byteAt record 2 = 0x52
    · rw [if_neg (not_not_intro h2)]
      by_cases h3 : is_valid_coordinate (f32At record 24) (f32At record 28) = true
      · rw [if_neg (by simp [h3]), if_pos ⟨by omega, h2.1, h2.2, h3⟩]
      · have h3' : is_valid_coordinate (f32At record 24) (f32At record 28) = false := by
          revert h3
          cases is_valid_coordinate (f32At record 24) (f32At record 28) <;> simp
        rw [if_pos (by simp [h3']), if_neg (fun hc => h3 hc.2.2.2)]
    · rw [if_pos h2, if_neg (fun hc => h2 ⟨hc.2.1, hc.2.2.1⟩)]

/-- The record-level facts maintained for every entry of `gps_all`: the entry is
geographic (both coordinates present) and passed the validity invariant, and
its `record_offset` field is the hardcoded 24 for known-absolute samples and a
scan offset in `[4, 80)` for discovered samples. -/
def SampleInv (g : GpsSample) : Prop :=
  (∃ la lo, g.latitude = some la ∧ g.longitude = some lo ∧
    is_valid_coordinate la lo = true) ∧
  (g.source = .knownType → g.record_offset = 24) ∧
  (g.source = .discovered → 4 ≤ g.record_offset ∧ g.record_offset < 80)

/-- `SampleInv` for every accumulated `gps_all` entry of a state. -/
def StateInv (st : ParserState) : Prop := ∀ g ∈ st.gps_all, SampleInv g

theorem parse_known_gps_absolute_elim (record : List Nat) (g : GpsSample)
    (h : parse_known_gps_absolute record = some g) :
    g.latitude = some (f32At record 24) ∧ g.longitude = some (f32At record 28) ∧
      is_valid_coordinate (f32At record 24) (f32At record 28) = true ∧
      g.source = .knownType ∧ g.record_offset = 24 := by
  rw [parse_known_gps_absolute] at h
  split at h
  · exact Option.noConfusion h
  · split at h
    · exact Option.noConfusion h
    · split at h
      · exact Option.noConfusion h
      · next hval =>
        cases h
        refine ⟨rfl, rfl, ?_, rfl, rfl⟩
        cases hv : is_valid_coordinate (f32At record 24) (f32At record 28) with
        | true => rfl
        | false => exact absurd (by rw [hv]; rfl) hval

theorem find_gps_head_elim (dist : ℚ → ℚ → ℚ → ℚ → ℚ) (hist : List (ℚ × ℚ))
    (center : Option (ℚ × ℚ)) (record : List Nat) (c : GpsCandidate)
    (h : (find_gps_in_record dist hist center record).head? = some c) :
    is_valid_coordinate c.latitude c.longitude = true ∧
      4 ≤ c.offset ∧ c.offset < min (record.length - 8) 80 := by
  rw [find_gps_in_record] at h
  split at h
  · exact Option.noConfusion h
  · have hmem := List.mem_of_mem_head? h
    obtain ⟨o, homem, ho⟩ := List.mem_filterMap.1 hmem
    obtain ⟨ho1, ho2⟩ := List.mem_range'_1.1 homem
    obtain ⟨hoff, _, _, hval⟩ := candidateAt_elim dist hist center record o c ho
    have hmin : 4 ≤ min (record.length - 8) 80 ∨ min (record.length - 8) 80 - 4 = 0 := by
      omega
    exact ⟨hval, by omega, by omega⟩

theorem update_region_center_region (st : ParserState) (h : st.coord_history ≠ []) :
    (update_region_center st).region_center = some (regionMediansOf st.coord_history) := by
  rw [update_region_center, if_neg h]

theorem phase1StepR_gps_all_inv (st : ParserState) (record : List Nat)
    (hst : StateInv st) : StateInv (phase1StepR st record) := by
  rw [phase1StepR]
  split
  · exact hst
  · split
    · split
      · next g heq =>
        intro g' hg'
        rcases List.mem_append.1 hg' with h' | h'
        · exact hst g' h'
        · obtain ⟨hla, hlo, hval, hsrc, hoff⟩ := parse_known_gps_absolute_elim record g heq
          rw [List.mem_singleton.1 h']
          exact ⟨⟨_, _, hla, hlo, hval⟩, fun _ => hoff,
            fun hd => absurd (hsrc ▸ hd) (by simp)⟩
      · exact hst
    · split
      · split
        · exact hst
        · exact hst
      · exact hst

theorem phase2StepR_gps_all_inv (dist : ℚ → ℚ → ℚ → ℚ → ℚ) (st : ParserState)
    (pos : Nat) (record : List Nat) (hst : StateInv st) :
    StateInv (phase2StepR dist st pos record) := by
  rw [phase2StepR]
  split
  · exact hst
  · split
    · exact hst
    · split
      · split
        · exact hst
        · exact hst
      · split
        · exact hst
        · next best heq =>
          have hinv : StateInv (appendDiscovered pos record st best) := by
            intro g' hg'
            rcases List.mem_append.1 hg' with h' | h'
            · exact hst g' h'
            · obtain ⟨hval, h4, h80⟩ := find_gps_head_elim dist _ _ record best heq
              rw [List.mem_singleton.1 h']
              refine ⟨⟨best.latitude, best.longitude, rfl, rfl, hval⟩,
                fun hk => absurd hk (by simp [mkDiscovered]),
                fun _ => ⟨h4, by
                  have hmr := Nat.min_le_right (record.length - 8) 80
                  show best.offset < 80
                  omega⟩⟩
          rw [acceptDiscovered]
          split
          · intro g' hg'
            rw [update_region_center_gps_all] at hg'
            exact hinv g' hg'
          · exact hinv

theorem parseAll_gps_all_inv (dist : ℚ → ℚ → ℚ → ℚ → ℚ) (data : List Nat) :
    StateInv (parseAll dist data) := by
  have h0 : StateInv initState := by intro g hg; exact absurd hg (by simp [initState])
  have h1 : StateInv (phase1 data) :=
    foldl_preserves StateInv phase1Step
      (fun st pr hst => phase1StepR_gps_all_inv st pr.2 hst) (find_records data) initState h0
  have h2 : StateInv (midState data) := by
    rw [midState]
    split
    · intro g hg
      rw [update_region_center_gps_all] at hg
      exact h1 g hg
    · exact h1
  exact foldl_preserves StateInv (phase2Step dist)
    (fun st pr hst => phase2StepR_gps_all_inv dist st pr.1 pr.2 hst)
    (find_records data) (midState data) h2

theorem getD_map_getD {α β : Type} (f : α → β) (l : List α) (i : Nat) (d : β)
    (d' : α) (h : i < l.length) : (l.map f).getD i d = f (l.getD i d') := by
  rw [List.getD_eq_getElem?_getD, List.getElem?_map, List.getElem?_eq_getElem h,
    List.getD_eq_getElem?_getD, List.getElem?_eq_getElem h]
  rfl

/-- Fixed-layout bytes of one absolute-GPS record: delimiter `0x7E`, tag
`0x23 0x52`, a zero counter at offset 4, zero padding up to offset 24, then the
little-endian float32 latitude, longitude and altitude fields. -/
def absRecBytes (latB lonB altB : List Nat) : List Nat :=
  [0x7E, 0x23, 0x52, 0x00, 0, 0, 0, 0, 0, 0, 0, 0, 0, 0, 0, 0, 0, 0, 0, 0,
    0, 0, 0, 0] ++ latB ++ lonB ++ altB

/-- Little-endian float32 bytes of 50.0. -/
def f50Bytes : List Nat := [0, 0, 0x48, 0x42]

/-- Little-endian float32 bytes of 60.0. -/
def f60Bytes : List Nat := [0, 0, 0x70, 0x42]

/-- Little-endian float32 bytes of 200.0. -/
def f200Bytes : List Nat := [0, 0, 0x48, 0x43]

/-- Little-endian float32 bytes of a quiet NaN (`0x7FC00000`). -/
def fNaNBytes : List Nat := [0, 0, 0xC0, 0x7F]

/-- C9: every sample ever appended to `gps_all` by a run of the parser carries a
present, finite latitude in [-90, 90] and longitude in [-180, 180] that are not
both within 0.01° of the origin; and the null-sentinel candidate at latitude
0.005, longitude 0.005 is rejected by the validity invariant outright. -/
theorem C9_gps_all_validity :
    (∀ (dist : ℚ → ℚ → ℚ → ℚ → ℚ) (data : List Nat) (g : GpsSample),
      g ∈ (parseAll dist data).gps_all →
      ∃ la lo : ℚ, g.latitude = some (.finite la) ∧ g.longitude = some (.finite lo) ∧
        -90 ≤ la ∧ la ≤ 90 ∧ -180 ≤ lo ∧ lo ≤ 180 ∧
        ¬(|la| < 1 / 100 ∧ |lo| < 1 / 100)) ∧
    is_valid_coordinate (.finite (1 / 200)) (.finite (1 / 200)) = false := by
  constructor
  · intro dist data g hg
    obtain ⟨⟨la, lo, hla, hlo, hval⟩, _, _⟩ := parseAll_gps_all_inv dist data g hg
    obtain ⟨qa, qb, hqa, hqb, h1, h2, h3, h4, h5⟩ := is_valid_coordinate_elim la lo hval
    rw [hqa] at hla
    rw [hqb] at hlo
    exact ⟨qa, qb, hla, hlo, h1, h2, h3, h4, h5⟩
  · rw [is_valid_coordinate]
    norm_num [F32.le, F32.lt, F32.abs, mkRat_one_hundredth]
    rw [abs_of_pos (by norm_num : (0 : ℚ) < 1 / 200)]
    norm_num

/-- Concrete 36-byte buffer holding one absolute-GPS record with latitude 50,
longitude 50, altitude 200, starting at file position 0. -/
def bufC9 : List Nat := absRecBytes f50Bytes f50Bytes f200Bytes

/-- The sample the run on `bufC9` appends to `gps_all`. -/
def gC9 : GpsSample :=
  { source := .knownType, type_hex := [0x23, 0x52, 0x00],
    latitude := some (.finite 50), longitude := some (.finite 50),
    altitude := some (.finite 200), counter := some 0,
    x := none, y := none, z := none, record_offset := 24, record_pos := none }

/-- C9, witness: the invariant applied to the concrete run on `bufC9`. -/
theorem C9_gps_all_validity_witness :
    gC9 ∈ (parseAll dist0 bufC9).gps_all ∧
    (∃ la lo : ℚ, gC9.latitude = some (.finite la) ∧ gC9.longitude = some (.finite lo) ∧
      -90 ≤ la ∧ la ≤ 90 ∧ -180 ≤ lo ∧ lo ≤ 180 ∧
      ¬(|la| < 1 / 100 ∧ |lo| < 1 / 100)) :=
  ⟨by decide, C9_gps_all_validity.1 dist0 bufC9 gC9 (by decide)⟩

/-- Concrete buffer: two non-delimiter garbage bytes, then one absolute-GPS
record; the record therefore begins at file position 2. -/
def bufC8 : List Nat := [0x11, 0x22] ++ absRecBytes f50Bytes f50Bytes f200Bytes

/-- The single CSV data row the run on `bufC8` exports. -/
def rowC8 : CsvRow :=
  { source := .knownType, type_hex := [0x23, 0x52, 0x00],
    latitude := some (.finite 50), longitude := some (.finite 50),
    altitude := some (.finite 200), counter := some 0, record_offset := 24 }

/-- C8 counterexample: on `bufC8` the only record begins at file position 2,
yet the exported row's final column (`record_offset`) is the hardcoded
within-record field offset 24 — not the position at which the record begins. -/
theorem C8_counterexample :
    export_all_gps_csv (parseAll dist0 bufC8) = [rowC8] ∧
    (find_records bufC8).map Prod.fst = [2] ∧
    rowC8.record_offset = 24 ∧ (24 : Nat) ≠ 2 :=
  ⟨by decide, by decide, by decide, by decide⟩

/-- C8 amended: the point export writes one row per entry of `gps_all`, in
order, and each row's final column is the sample's `record_offset` field — the
byte offset of the matched field *inside its record* (hardcoded 24 for
known-absolute samples, and the winning scan offset, always in `[4, 80)`, for
discovered samples), not the file position of the record. -/
theorem C8_rows_and_offsets :
    (∀ s : ParserState, (export_all_gps_csv s).length = s.gps_all.length) ∧
    (∀ (s : ParserState) (i : Nat), i < s.gps_all.length →
      (export_all_gps_csv s).getD i junkRow = rowOf (s.gps_all.getD i junkSample)) ∧
    (∀ (dist : ℚ → ℚ → ℚ → ℚ → ℚ) (data : List Nat) (g : GpsSample),
      g ∈ (parseAll dist data).gps_all →
        (g.source = .knownType → g.record_offset = 24) ∧
        (g.source = .discovered → 4 ≤ g.record_offset ∧ g.record_offset < 80)) := by
  refine ⟨?_, ?_, ?_⟩
  · intro s
    rw [export_all_gps_csv, List.length_map]
  · intro s i h
    rw [export_all_gps_csv, getD_map_getD rowOf s.gps_all i junkRow junkSample h]
  · intro dist data g hg
    obtain ⟨_, hk, hd⟩ := parseAll_gps_all_inv dist data g hg
    exact ⟨hk, hd⟩

/-- C8 amended, witness: the row/offset correspondence applied to the concrete
run on `bufC8`. -/
theorem C8_rows_and_offsets_witness :
    (0 < (parseAll dist0 bufC8).gps_all.length) ∧
    (export_all_gps_csv (parseAll dist0 bufC8)).getD 0 junkRow =
      rowOf ((parseAll dist0 bufC8).gps_all.getD 0 junkSample) ∧
    gC9 ∈ (parseAll dist0 bufC8).gps_all ∧
    ((gC9.source = .knownType → gC9.record_offset = 24) ∧
      (gC9.source = .discovered → 4 ≤ gC9.record_offset ∧ gC9.record_offset < 80)) :=
  ⟨by decide, C8_rows_and_offsets.2.1 (parseAll dist0 bufC8) 0 (by decide),
    by decide, C8_rows_and_offsets.2.2 dist0 bufC8 gC9 (by decide)⟩

theorem acceptDiscovered_gps_discovered (pos : Nat) (record : List Nat)
    (st : ParserState) (best : GpsCandidate) :
    (acceptDiscovered pos record st best).gps_discovered =
      st.gps_discovered ++ [mkDiscovered pos record best] := by
  rw [acceptDiscovered]
  split
  · rw [update_region_center_gps_discovered]
    rfl
  · rfl

/-- C2: on a record whose tag is neither of the two known-schema tags nor the
telemetry tag, the phase-2 loop appends at most one discovered sample, and when
it appends one the chosen candidate is exactly the first element of the
locator's candidate list: it passes the whole filter chain (`candidateAt`
returns it), its offset lies in `[4, min(len-8, 80))`, and every smaller offset
in that range is rejected by the filter chain. -/
theorem C2_locator_selection (dist : ℚ → ℚ → ℚ → ℚ → ℚ) (st : ParserState)
    (pos : Nat) (record : List Nat)
    (h4 : 4 ≤ record.length)
    (hk : ¬((byteAt record 1 = 0x23 ∧ byteAt record 2 = 0x52) ∨
      (byteAt record 1 = 0x27 ∧ byteAt record 2 = 0x52)))
    (hks : ¬(byteAt record 1 = 0x4B ∧ byteAt record 2 = 0x53)) :
    (phase2StepR dist st pos record).gps_discovered.length ≤
      st.gps_discovered.length + 1 ∧
    ((find_gps_in_record dist st.coord_history st.region_center record).head? = none →
      (phase2StepR dist st pos record).gps_discovered = st.gps_discovered) ∧
    (∀ c, (find_gps_in_record dist st.coord_history st.region_center record).head? = some c →
      (phase2StepR dist st pos record).gps_discovered =
        st.gps_discovered ++ [mkDiscovered pos record c] ∧
      4 ≤ c.offset ∧ c.offset < min (record.length - 8) 80 ∧
      candidateAt dist st.coord_history st.region_center record c.offset = some c ∧
      ∀ o, 4 ≤ o → o < c.offset →
        candidateAt dist st.coord_history st.region_center record o = none) := by
  rw [phase2StepR, if_neg (by omega), if_neg hk, if_neg hks]
  cases hc : (find_gps_in_record dist st.coord_history st.region_center record).head? with
  | none =>
    refine ⟨?_, fun _ => rfl, fun c hcon => Option.noConfusion hcon⟩
    show st.gps_discovered.length ≤ st.gps_discovered.length + 1
    omega
  | some best =>
    refine ⟨?_, fun h0 => Option.noConfusion h0, fun c hcon => ?_⟩
    · show (acceptDiscovered pos record st best).gps_discovered.length ≤
        st.gps_discovered.length + 1
      rw [acceptDiscovered_gps_discovered, List.length_append]
      simp
    · cases hcon
      refine ⟨acceptDiscovered_gps_discovered pos record st best, ?_⟩
      have hc' := hc
      rw [find_gps_in_record] at hc'
      split at hc'
      · exact Option.noConfusion hc'
      · obtain ⟨o, ho4, hok, hfo, hmin⟩ :=
          filterMap_range'_head_some (candidateAt dist st.coord_history st.region_center record)
            (min (record.length - 8) 80 - 4) 4 best hc'
        obtain ⟨hoff, _, _, _⟩ :=
          candidateAt_elim dist st.coord_history st.region_center record o best hfo
        have hminr := Nat.min_le_right (record.length - 8) 80
        refine ⟨by omega, by omega, by rw [hoff]; exact hfo, fun o' h4' hlt => ?_⟩
        exact hmin o' h4' (by omega)

/-- Concrete 13-byte unknown-tag record: delimiter, tag bytes `0x01 0x01 0x00`,
then float32 60.0 at offset 4 and float32 60.0 at offset 8; the scan range is
`range(4, 5) = {4}`. -/
def discRecC2 : List Nat := [0x7E, 0x01, 0x01, 0x00] ++ f60Bytes ++ f60Bytes ++ [0]

/-- C2, witness: the selection property applied to the empty-history state and
the concrete record `discRecC2`. -/
theorem C2_locator_selection_witness :
    4 ≤ discRecC2.length ∧
    ¬((byteAt discRecC2 1 = 0x23 ∧ byteAt discRecC2 2 = 0x52) ∨
      (byteAt discRecC2 1 = 0x27 ∧ byteAt discRecC2 2 = 0x52)) ∧
    ¬(byteAt discRecC2 1 = 0x4B ∧ byteAt discRecC2 2 = 0x53) ∧
    ((phase2StepR dist0 initState 0 discRecC2).gps_discovered.length ≤
      initState.gps_discovered.length + 1 ∧
    ((find_gps_in_record dist0 initState.coord_history initState.region_center
        discRecC2).head? = none →
      (phase2StepR dist0 initState 0 discRecC2).gps_discovered = initState.gps_discovered) ∧
    (∀ c, (find_gps_in_record dist0 initState.coord_history initState.region_center
        discRecC2).head? = some c →
      (phase2StepR dist0 initState 0 discRecC2).gps_discovered =
        initState.gps_discovered ++ [mkDiscovered 0 discRecC2 c] ∧
      4 ≤ c.offset ∧ c.offset < min (discRecC2.length - 8) 80 ∧
      candidateAt dist0 initState.coord_history initState.region_center discRecC2
        c.offset = some c ∧
      ∀ o, 4 ≤ o → o < c.offset →
        candidateAt dist0 initState.coord_history initState.region_center discRecC2
          o = none)) :=
  ⟨by decide, by decide, by decide,
    C2_locator_selection dist0 initState 0 discRecC2 (by decide) (by decide) (by decide)⟩

/-- The candidate the phase-2 loop body accepts for a record, if any: `none` on
short records, known-schema tags and the telemetry tag, otherwise the head of
the locator's candidate list. -/
def locatorCandidate (dist : ℚ → ℚ → ℚ → ℚ → ℚ) (st : ParserState)
    (record : List Nat) : Option GpsCandidate :=
  if record.length < 4 then none
  else if (byteAt record 1 = 0x23 ∧ byteAt record 2 = 0x52) ∨
      (byteAt record 1 = 0x27 ∧ byteAt record 2 = 0x52) then none
  else if byteAt record 1 = 0x4B ∧ byteAt record 2 = 0x53 then none
  else (find_gps_in_record dist st.coord_history st.region_center record).head?

theorem phase1StepR_region (st : ParserState) (record : List Nat) :
    (phase1StepR st record).region_center = st.region_center := by
  rw [phase1StepR]
  split
  · rfl
  · split
    · split
      · rfl
      · rfl
    · split
      · split
        · rfl
        · rfl
      · rfl

theorem phase1_region (data : List Nat) : (phase1 data).region_center = none := by
  rw [phase1]
  exact foldl_preserves (fun st => st.region_center = none) phase1Step
    (fun st pr h => by
      show (phase1StepR st pr.2).region_center = none
      rw [phase1StepR_region]
      exact h)
    (find_records data) initState rfl

/-- C1 amended: the `RegionEstimate` is recomputed once, immediately after the
known-GPS phase, exactly when at least one confirmed coordinate exists (and is
absent otherwise); and a phase-2 step recomputes it exactly when it accepts a
discovered candidate *and* the total accumulated coordinate-history length —
known-GPS entries included — reaches a multiple of 100 with that acceptance.
The refresh cadence is therefore every 100 discovered points only up to an
offset determined by the number of known-GPS history entries. -/
theorem C1_region_refresh :
    (∀ data : List Nat, (midState data).region_center =
      if (phase1 data).coord_history = [] then none
      else some (regionMediansOf (phase1 data).coord_history)) ∧
    (∀ (dist : ℚ → ℚ → ℚ → ℚ → ℚ) (st : ParserState) (pos : Nat) (record : List Nat),
      (phase2StepR dist st pos record).region_center =
        match locatorCandidate dist st record with
        | none => st.region_center
        | some best =>
          if (st.coord_history.length + 1) % 100 = 0 then
            some (regionMediansOf
              (st.coord_history ++ [(best.latitude.q, best.longitude.q)]))
          else st.region_center) := by
  constructor
  · intro data
    rw [midState]
    split
    · next hpos =>
      have hne : (phase1 data).coord_history ≠ [] := by
        intro hcn
        rw [hcn] at hpos
        simp at hpos
      rw [update_region_center_region _ hne, if_neg hne]
    · next hpos =>
      have he : (phase1 data).coord_history = [] := by
        cases hq : (phase1 data).coord_history with
        | nil => rfl
        | cons a l =>
          exfalso
          apply hpos
          rw [hq]
          simp
      rw [if_pos he, phase1_region]
  · intro dist st pos record
    rw [phase2StepR, locatorCandidate]
    by_cases h1 : record.length < 4
    · rw [if_pos h1, if_pos h1]
    · rw [if_neg h1, if_neg h1]
      by_cases h2 : (byteAt record 1 = 0x23 ∧ byteAt record 2 = 0x52) ∨
          (byteAt record 1 = 0x27 ∧ byteAt record 2 = 0x52)
      · rw [if_pos h2, if_pos h2]
      · rw [if_neg h2, if_neg h2]
        by_cases h3 : byteAt record 1 = 0x4B ∧ byteAt record 2 = 0x53
        · rw [if_pos h3, if_pos h3]
          cases parse_ks_telemetry record <;> rfl
        · rw [if_neg h3, if_neg h3]
          cases hc : (find_gps_in_record dist st.coord_history st.region_center
              record).head? with
          | none => rfl
          | some best =>
            show (acceptDiscovered pos record st best).region_center =
              if (st.coord_history.length + 1) % 100 = 0 then
                some (regionMediansOf
                  (st.coord_history ++ [(best.latitude.q, best.longitude.q)]))
              else st.region_center
            rw [acceptDiscovered]
            have hlen : (appendDiscovered pos record st best).coord_history.length =
                st.coord_history.length + 1 := by
              rw [appendDiscovered]
              show (st.coord_history ++ [(best.latitude.q, best.longitude.q)]).length =
                st.coord_history.length + 1
              rw [List.length_append]
              rfl
            rw [hlen]
            by_cases hmod : (st.coord_history.length + 1) % 100 = 0
            · rw [if_pos hmod, if_pos hmod,
                update_region_center_region _ (by
                  rw [appendDiscovered]
                  show st.coord_history ++ [(best.latitude.q, best.longitude.q)] ≠ []
                  simp)]
              rfl
            · rw [if_neg hmod, if_neg hmod]
              rfl

/-- Little-endian float32 bytes of 50.25 (`0x42490000`; 50.25 = 201/4 is
exactly representable). -/
def f5025Bytes : List Nat := [0, 0, 0x49, 0x42]

/-- Concrete 13-byte unknown-tag record carrying the discoverable coordinate
(50.25, 50.25) at offset 4. -/
def discRecC1 : List Nat := [0x7E, 0x01, 0x01, 0x00] ++ f5025Bytes ++ f5025Bytes ++ [0]

/-- Concrete buffer for the refresh-cadence counterexample: one absolute-GPS
record at (50, 50) followed by 99 unknown-tag records, each carrying the
discoverable coordinate (50.25, 50.25).  The discovered point lies about
33.0 km (haversine, Earth radius 6371 km) from the known point and 0 km from
the other history entries, so on this input every coherence comparison
(`min distance < 50`) and every region comparison (`distance < 200`) is true
under the haversine exactly as it is under the instantiation `dist0`: the
modelled run takes the same branch as the real program at every step. -/
def bufC1 : List Nat :=
  absRecBytes f50Bytes f50Bytes f200Bytes ++ (List.replicate 99 discRecC1).flatten

/-- C1 counterexample: on `bufC1` the known-GPS phase leaves one history entry,
so the region estimate right after that phase is `(50, 50)`; the locator phase
then accepts only 99 discovered points — fewer than 100, so under the claim no
further refresh may happen — yet the final region estimate has changed to
`(50.25, 50.25)`, because the code refreshes when the *total* history length
(known + discovered) reaches a multiple of 100, here at the 99th discovered
point (total history 100). -/
theorem C1_counterexample :
    (midState bufC1).region_center = some ((50 : ℚ), (50 : ℚ)) ∧
    (parseAll dist0 bufC1).gps_discovered.length = 99 ∧
    (parseAll dist0 bufC1).region_center = some ((mkRat 201 4 : ℚ), (mkRat 201 4 : ℚ)) ∧
    some ((mkRat 201 4 : ℚ), (mkRat 201 4 : ℚ)) ≠ some ((50 : ℚ), (50 : ℚ)) ∧
    (∀ d : Nat, d ≤ 99 → d % 100 = 0 → d = 0) :=
  ⟨by decide, by decide, by decide, by decide, by omega⟩

/-- Placeholder output triple for out-of-range `getD` accesses in statements. -/
def junkT : F32 × F32 × F32 := (.finite 0, .finite 0, .finite 0)

/-- The indices the backward altitude scan actually examines for position `i`,
in scan order: `i-1` down to `max 1 (i-19)` — at most 19 positions, and never
index 0 (the Python `range(i-1, max(0, i-20), -1)` stops before its stop
bound). -/
def backIdxs (i : Nat) : List Nat :=
  (List.range' (max 1 (i - 19)) (i - max 1 (i - 19))).reverse

/-- The indices the forward altitude scan actually examines for position `i`:
`i+1` up to `min len (i+20) - 1` — at most 19 positions. -/
def fwdIdxs (i len : Nat) : List Nat :=
  List.range' (i + 1) (min len (i + 20) - (i + 1))

/-- The replacement altitude, phrased over the explicit index windows. -/
def amendedFill (coords : List Coord3) (i : Nat) : F32 :=
  match (backIdxs i).findSome? (fun j => posAlt (coords.getD j junk3).2.2),
      (fwdIdxs i coords.length).findSome? (fun j => posAlt (coords.getD j junk3).2.2) with
  | some p, some n => halfSum p n
  | some p, none => p
  | none, some n => n
  | none, none => .finite 100

theorem backIdxs_eq (i : Nat) :
    (List.range' (i - 20 + 1) ((i - 1) - (i - 20))).reverse = backIdxs i := by
  rw [backIdxs, show i - 20 + 1 = max 1 (i - 19) from by omega,
    show (i - 1) - (i - 20) = i - max 1 (i - 19) from by omega]

theorem fillAlt_eq_amendedFill (coords : List Coord3) (i : Nat) :
    fillAlt coords i = amendedFill coords i := by
  unfold fillAlt amendedFill fwdIdxs
  rw [scanBackAux_eq_findSome coords (i - 20) (i - 1),
    scanFwdAux_eq_findSome coords (min coords.length (i + 20) - (i + 1)) (i + 1),
    backIdxs_eq]

/-- Definition following C4's words (spec side, for comparison only): the
backward search examines up to 20 positions, indices `i-1` down to `i-20`
(floored at index 0 inclusive). -/
def specBackIdxs (i : Nat) : List Nat :=
  (List.range' (i - 20) (i - (i - 20))).reverse

/-- Definition following C4's words (spec side, for comparison only): the
forward search examines up to 20 positions, indices `i+1` up to `i+20`
(capped at the last index). -/
def specFwdIdxs (i len : Nat) : List Nat :=
  List.range' (i + 1) (min (len - 1) (i + 20) - i)

/-- The replacement altitude according to C4's words: nearest positive
altitude within 20 positions backward and forward, mean / single side / 100. -/
def specFill (coords : List Coord3) (i : Nat) : F32 :=
  match (specBackIdxs i).findSome? (fun j => posAlt (coords.getD j junk3).2.2),
      (specFwdIdxs i coords.length).findSome? (fun j => posAlt (coords.getD j junk3).2.2) with
  | some p, some n => halfSum p n
  | some p, none => p
  | none, some n => n
  | none, none => .finite 100

/-- The altitude-interpolation pass as C4 describes it (spec side, for
comparison only). -/
def spec_interpolate_altitude (coords : List Coord3) : List (F32 × F32 × F32) :=
  (List.range coords.length).map fun i =>
    if altBad (coords.getD i junk3).2.2 then
      ((coords.getD i junk3).1, (coords.getD i junk3).2.1, specFill coords i)
    else
      ((coords.getD i junk3).1, (coords.getD i junk3).2.1,
        ((coords.getD i junk3).2.2).getD (.finite 0))

/-- Two-point list whose second altitude is non-positive and whose only
positive altitude sits exactly one position back, at index 0. -/
def coordsC4x : List Coord3 :=
  [(.finite 0, .finite 0, some (.finite 50)), (.finite 0, .finite 0, some (.finite 0))]

/-- C4 counterexample: on `coordsC4x` the claim's search (which reaches index
`i-20 ≥ 0`, in particular index 0) fills the second altitude with the neighbour
value 50, but the code's backward loop `range(i-1, max(0, i-20), -1)` stops
*before* its stop bound and therefore never examines index 0 at all: the code
returns the default 100 instead. -/
theorem C4_counterexample :
    interpolate_altitude coordsC4x ≠ spec_interpolate_altitude coordsC4x ∧
    interpolate_altitude coordsC4x =
      [(.finite 0, .finite 0, .finite 50), (.finite 0, .finite 0, .finite 100)] ∧
    spec_interpolate_altitude coordsC4x =
      [(.finite 0, .finite 0, .finite 50), (.finite 0, .finite 0, .finite 50)] :=
  ⟨by decide, by decide, by decide⟩

/-- C4 amended: for every trajectory point whose altitude is missing or ≤ 0,
the replacement is computed from the nearest positive-altitude neighbours found
by scanning backward over indices `i-1` down to `max 1 (i-19)` (at most 19
positions, never index 0) and forward over indices `i+1` up to
`min len (i+20) - 1` (at most 19 positions): the mean of the two neighbours if
both sides yield one, the single neighbour if only one side does, and exactly
100.0 if neither does. -/
theorem C4_interpolation_windows (coords : List Coord3) (i : Nat)
    (hi : i < coords.length) (hbad : altBad (coords.getD i junk3).2.2 = true) :
    (interpolate_altitude coords).getD i junkT =
      ((coords.getD i junk3).1, (coords.getD i junk3).2.1, amendedFill coords i) := by
  rw [interpolate_altitude, getD_map_range _ coords.length i junkT hi, if_pos hbad,
    fillAlt_eq_amendedFill]

/-- Three-point list exercising both a backward and a forward neighbour. -/
def coordsC4w : List Coord3 :=
  [(.finite 0, .finite 0, some (.finite 50)), (.finite 0, .finite 0, some (.finite 0)),
    (.finite 0, .finite 0, some (.finite 30))]

/-- C4 amended, witness at index 1 of `coordsC4w`. -/
theorem C4_interpolation_windows_witness :
    1 < coordsC4w.length ∧ altBad (coordsC4w.getD 1 junk3).2.2 = true ∧
    (interpolate_altitude coordsC4w).getD 1 junkT =
      ((coordsC4w.getD 1 junk3).1, (coordsC4w.getD 1 junk3).2.1,
        amendedFill coordsC4w 1) :=
  ⟨by decide, by decide, C4_interpolation_windows coordsC4w 1 (by decide) (by decide)⟩

theorem interpolate_altitude_le_zero_false (coords : List Coord3) :
    ∀ p ∈ interpolate_altitude coords, F32.le p.2.2 (.finite 0) = false := by
  intro p hp
  rw [interpolate_altitude] at hp
  obtain ⟨i, hir, hpe⟩ := List.mem_map.1 hp
  rw [← hpe]
  by_cases hbad : altBad (coords.getD i junk3).2.2 = true
  · rw [if_pos hbad]
    show F32.le (fillAlt coords i) (.finite 0) = false
    rw [fillAlt]
    cases hb : scanBackAux coords (i - 20) (i - 1) with
    | none =>
      cases hf : scanFwdAux coords (min coords.length (i + 20) - (i + 1)) (i + 1) with
      | none => decide
      | some nv =>
        show F32.le nv (.finite 0) = false
        exact le_zero_false_of_pos nv (scanFwdAux_pos coords _ _ nv hf)
    | some pv =>
      cases hf : scanFwdAux coords (min coords.length (i + 20) - (i + 1)) (i + 1) with
      | none =>
        show F32.le pv (.finite 0) = false
        exact le_zero_false_of_pos pv (scanBackAux_pos coords _ _ pv hb)
      | some nv =>
        show F32.le (halfSum pv nv) (.finite 0) = false
        exact halfSum_pos pv nv (scanBackAux_pos coords _ _ pv hb)
          (scanFwdAux_pos coords _ _ nv hf)
  · rw [if_neg hbad]
    cases halt : (coords.getD i junk3).2.2 with
    | none => exact absurd (by rw [halt]; rfl) hbad
    | some a =>
      show F32.le a (.finite 0) = false
      have : altBad (coords.getD i junk3).2.2 = F32.le a (.finite 0) := by
        rw [halt]
        rfl
      cases hla : F32.le a (.finite 0) with
      | false => rfl
      | true => exact absurd (by rw [this, hla]) hbad

/-- C5 amended: every altitude in the written trajectory is present and is not
`≤ 0` under float comparison semantics: finite exported altitudes are strictly
positive, and a positive infinity also satisfies `alt > 0`; the one deviation
from the claim is that a NaN altitude decoded from a known-absolute record
passes the `alt <= 0` test unchanged and is exported as NaN, which is not
strictly greater than 0 (see the counterexample). -/
theorem C5_exported_altitudes (dist : ℚ → ℚ → ℚ → ℚ → ℚ) (s : ParserState)
    (out : List (F32 × F32 × F32)) (h : export_trajectory_kml dist s = some out) :
    ∀ p ∈ out, F32.le p.2.2 (.finite 0) = false := by
  rw [export_trajectory_kml] at h
  split at h
  · exact Option.noConfusion h
  · split at h
    · exact Option.noConfusion h
    · cases h
      exact fun p hp => interpolate_altitude_le_zero_false _ p hp

/-- Concrete 36-byte buffer holding one absolute-GPS record with latitude 50,
longitude 50 and NaN altitude bytes `0x7FC00000`. -/
def bufC5 : List Nat := absRecBytes f50Bytes f50Bytes fNaNBytes

/-- C5 counterexample: the known-absolute decoder stores the NaN altitude
unvalidated, the `alt is None or alt <= 0` test does not catch NaN (both
comparisons are false), and the trajectory export writes it out — an exported
altitude that is not strictly greater than 0, refuting the claim for this
input. -/
theorem C5_counterexample :
    export_trajectory_kml dist0 (parseAll dist0 bufC5) =
      some [(.finite 50, .finite 50, F32.nan)] ∧
    F32.lt (.finite 0) F32.nan = false :=
  ⟨by decide, by decide⟩

/-- C5 amended, witness: the concrete run on `bufC9` exports a single triple
with altitude 200, and the theorem yields its positivity. -/
theorem C5_exported_altitudes_witness :
    export_trajectory_kml dist0 (parseAll dist0 bufC9) =
      some [(.finite 50, .finite 50, .finite 200)] ∧
    ((.finite 50 : F32), (.finite 50 : F32), (.finite 200 : F32)) ∈
      [((.finite 50 : F32), (.finite 50 : F32), (.finite 200 : F32))] ∧
    F32.le (.finite 200 : F32) (.finite 0) = false :=
  ⟨by decide, by decide,
    C5_exported_altitudes dist0 (parseAll dist0 bufC9)
      [(.finite 50, .finite 50, .finite 200)] (by decide)
      ((.finite 50 : F32), (.finite 50 : F32), (.finite 200 : F32)) (by decide)⟩
